import Mathlib

/-!
Shallow embedding of the deviantart-downloader repository
(src/pinterest_downloader/scrape.py, src/pinterest_downloader/__main__.py,
src/deviantart_downloader/cookies.py), together with proofs settling the
frozen claims about its specification.

Python strings are modelled as Lean `String` / `List Char`; Python `dict`
field access `d.get(k)` is modelled by `Option`-typed structure fields;
Python exceptions (KeyError, IndexError) are modelled by `Except` / `none`
results.  HTTP traffic is modelled by explicit response sequences handed to
the functions that would perform the network calls.
-/

/-! ## Python string primitives

`begs pat s` models "s starts with pat"; `containsSub pat s` models the
Python substring test `pat in s`; `pySplitL` models `str.split(sep)` for a
non-empty separator; `pyReplaceL` models `str.replace(old, new)` for a
non-empty `old`.  The latter two use an explicit fuel argument (one unit of
fuel per consumed character) purely to make the recursion structural; the
wrappers supply enough fuel for the whole input. -/

def begs : List Char → List Char → Bool
  | [], _ => true
  | _ :: _, [] => false
  | p :: ps, c :: cs => (p = c) && begs ps cs

def containsSub (pat : List Char) : List Char → Bool
  | [] => begs pat []
  | c :: cs => begs pat (c :: cs) || containsSub pat cs

def pyInStr (needle hay : String) : Bool :=
  containsSub needle.toList hay.toList

def pySplitGo (sep : List Char) : Nat → List Char → List Char → List (List Char)
  | _, [], acc => [acc.reverse]
  | 0, s, acc => [acc.reverse ++ s]
  | fuel + 1, c :: cs, acc =>
    if begs sep (c :: cs) && !sep.isEmpty then
      acc.reverse :: pySplitGo sep fuel ((c :: cs).drop sep.length) []
    else
      pySplitGo sep fuel cs (c :: acc)

def pySplitL (sep s : List Char) : List (List Char) :=
  pySplitGo sep s.length s []

def pySplit (sep s : String) : List String :=
  (pySplitL sep.toList s.toList).map String.mk

def pyReplaceGo (pat rep : List Char) : Nat → List Char → List Char
  | _, [] => []
  | 0, s => s
  | fuel + 1, c :: cs =>
    if begs pat (c :: cs) && !pat.isEmpty then
      rep ++ pyReplaceGo pat rep fuel ((c :: cs).drop pat.length)
    else
      c :: pyReplaceGo pat rep fuel cs

def pyReplace (s pat rep : String) : String :=
  String.mk (pyReplaceGo pat.toList rep.toList s.toList.length s.toList)

def endsL (pat s : List Char) : Bool :=
  begs pat.reverse s.reverse

def pyEndsWith (s pat : String) : Bool :=
  endsL pat.toList s.toList

def pyStripSlash (s : String) : String :=
  String.mk (((s.toList.dropWhile (· = '/')).reverse.dropWhile (· = '/')).reverse)

/-! ## Authenticated request layer — `send_request` (scrape.py lines 30-59)

An HTTP response is modelled by its success flag and its optional
`Set-Cookie` header.  `send_request` performs `session.get`, returns `None`
on a non-OK response, returns `None` when the `Set-Cookie` header contains
the substring `"auth=deleted"`, and otherwise, when a `Set-Cookie` header is
present, recursively re-issues the identical request.

The sequence of responses the server would give to the repeated identical
request is passed explicitly as a list; `send_request responses = none`
means the recursion consumed every supplied response without returning
(i.e. the Python function is still re-issuing requests), `some none` models
the Python function returning `None`, and `some (some r)` models it
returning response `r`.  `send_request_calls` counts how many HTTP requests
(`session.get` invocations) are performed on the same trace. -/

structure HttpResponse where
  ok : Bool
  setCookie : Option String
  deriving DecidableEq

def send_request : List HttpResponse → Option (Option HttpResponse)
  | [] => none
  | r :: rest =>
    if r.ok = false then some none
    else
      match r.setCookie with
      | none => some (some r)
      | some c =>
        if pyInStr "auth=deleted" c then some none
        else send_request rest

def send_request_calls : List HttpResponse → Nat
  | [] => 0
  | r :: rest =>
    if r.ok = false then 1
    else
      match r.setCookie with
      | none => 1
      | some c =>
        if pyInStr "auth=deleted" c then 1
        else 1 + send_request_calls rest

/-- The same recursion, viewed against an infinite stream of server
responses, with an explicit fuel bound: `none` means the fuel was exhausted
while the function was still re-issuing the request (the Python recursion
has not returned after that many requests). -/
def send_request_fuel : Nat → (Nat → HttpResponse) → Nat → Option (Option HttpResponse)
  | 0, _, _ => none
  | fuel + 1, srv, i =>
    let r := srv i
    if r.ok = false then some none
    else
      match r.setCookie with
      | none => some (some r)
      | some c =>
        if pyInStr "auth=deleted" c then some none
        else send_request_fuel fuel srv (i + 1)

/-! ## `save_deviantart_art` (scrape.py lines 186-221)

The function sends the page request through `send_request`; if that returns
no response it aborts before any image download.  Otherwise it extracts an
image URL from the page HTML (BeautifulSoup scraping, modelled by an opaque
extractor function passed as an argument together with the page-text view
of a response) and issues exactly one image download request for it via
`download_media`.  The value returned here is the list of image download
request URLs that the operation issues. -/

def save_deviantart_art (responses : List HttpResponse)
    (pageText : HttpResponse → String) (extractImageUrl : String → Option String) :
    List String :=
  match send_request responses with
  | some (some r) =>
    match extractImageUrl (pageText r) with
    | some imgUrl => [imgUrl]
    | none => []
  | _ => []

/-! ## Media extraction — `_extract_image_urls_from_results` (scrape.py lines 303-344)

A result item is a JSON dictionary; `media` models `item.get("media", {})`
where `none` stands for a missing `"media"` key or an empty/falsy media
dictionary (both take the first `continue`), and `url` models the presence
of the `"url"` key (`item["url"]` raises `KeyError` when it is absent).
Inside the media dictionary every field is optional, mirroring `dict.get`:
`token` and `types` take the default `[]` when absent.  Python truthiness
of the extracted values (`if not (base_uri and pretty_name and token_list
and types)`) is modelled by `truthyStr` / non-emptiness. -/

structure MediaType where
  t : Option String
  c : Option String
  deriving DecidableEq

structure Media where
  baseUri : Option String
  prettyName : Option String
  token : Option (List String)
  types : Option (List MediaType)
  deriving DecidableEq

structure ResultItem where
  media : Option Media
  url : Option String
  deriving DecidableEq

/-- Python truthiness of an optional string: `None` and `""` are falsy. -/
def truthyStr : Option String → Bool
  | none => false
  | some s => !(s = "")

/-- Outcome of one iteration of the `for item in results` loop. -/
inductive ItemResult where
  | skipped
  | recorded (url : String)
  | keyErr
  | resolved (mediaUrl : String)
  deriving DecidableEq

/-- One iteration of the loop body of `_extract_image_urls_from_results`:
either the item is silently skipped (`continue` without any record), or its
`item["url"]` is appended to the error list (`recorded`), or `item["url"]`
raises `KeyError` (`keyErr`), or a resolved media URL is produced. -/
def processItem (item : ResultItem) : ItemResult :=
  match item.media with
  | none => .skipped
  | some media =>
    let base_uri := media.baseUri
    let pretty_name := media.prettyName
    let token_list := media.token.getD []
    let types := media.types.getD []
    if !(truthyStr base_uri && truthyStr pretty_name
          && !token_list.isEmpty && !types.isEmpty) then
      .skipped
    else
      let token := token_list.headD ""
      let fullview := types.find? (fun ty => ty.t == some "fullview")
      match fullview with
      | none =>
        match item.url with
        | none => .keyErr
        | some u => .recorded u
      | some fv =>
        if !truthyStr fv.c then
          match item.url with
          | none => .keyErr
          | some u => .recorded u
        else
          let image_path := pyReplace (fv.c.getD "") "<prettyName>" (pretty_name.getD "")
          .resolved ((base_uri.getD "") ++ image_path ++ "?token=" ++ token)

/-- `_extract_image_urls_from_results results`, threading the global
`error_list` explicitly (`errs` is its value on entry; the returned list is
its value on exit).  `Except.error ()` models an uncaught `KeyError` from
`item["url"]` aborting the whole call. -/
def extract_image_urls_from_results (results : List ResultItem) (errs : List String) :
    Except Unit (List String × List String) :=
  match results with
  | [] => .ok ([], errs)
  | item :: rest =>
    match processItem item with
    | .skipped => extract_image_urls_from_results rest errs
    | .keyErr => .error ()
    | .recorded u => extract_image_urls_from_results rest (errs ++ [u])
    | .resolved m =>
      match extract_image_urls_from_results rest errs with
      | .error e => .error e
      | .ok (urls, errs2) => .ok (m :: urls, errs2)

/-! ## Paginated gallery walk — `_fetch_media_batch` and `get_gallery_media`
(scrape.py lines 246-300 and 347-409)

The external JSON API is modelled as a function from the requested offset
to an optional response; `none` covers both a failed `send_request` and an
empty response JSON (either way `_fetch_media_batch` returns `None`).  The
`hasMore` / `nextOffset` fields are optional, with the source's defaults
`False` and `offset + MAX_GALLERY_ITEMS` applied by `fetch_media_batch`.
`MAX_GALLERY_ITEMS` comes from the `consts` module, which is not part of
the sources; it is kept as an explicit parameter `MAX`. -/

structure ApiJson where
  results : List ResultItem
  hasMore : Option Bool
  nextOffset : Option Nat
  deriving DecidableEq

def fetch_media_batch (MAX : Nat) (api : Nat → Option ApiJson) (offset : Nat)
    (errs : List String) :
    Option (Except Unit ((List String × Bool × Nat) × List String)) :=
  match api offset with
  | none => none
  | some j =>
    match extract_image_urls_from_results j.results errs with
    | .error e => some (.error e)
    | .ok (urls, errs2) =>
      some (.ok ((urls, j.hasMore.getD false, j.nextOffset.getD (offset + MAX)), errs2))

/-- The `while has_more` loop of `get_gallery_media`, with an explicit fuel
bound on the number of iterations (`none` = fuel exhausted while the loop
was still running).  On normal termination it returns the list of yielded
batches, the list of offsets at which the API was called (in order), and
the final error list; `Except.error ()` models an uncaught `KeyError`
propagating out of the generator. -/
def get_gallery_media_loop (MAX : Nat) (api : Nat → Option ApiJson) :
    Nat → Nat → List String →
    Option (Except Unit (List (List String) × List Nat × List String))
  | 0, _, _ => none
  | fuel + 1, offset, errs =>
    match fetch_media_batch MAX api offset errs with
    | none => some (.ok ([], [offset], errs))
    | some (.error e) => some (.error e)
    | some (.ok ((urls, hasMore, nextOff), errs2)) =>
      if hasMore = false then some (.ok ([urls], [offset], errs2))
      else
        match get_gallery_media_loop MAX api fuel nextOff errs2 with
        | none => none
        | some (.error e) => some (.error e)
        | some (.ok (batches, offs, errs3)) =>
          some (.ok (urls :: batches, offset :: offs, errs3))

/-- Folder-id extraction performed by `get_gallery_media` (scrape.py line
388): `urlparse(url).path.split("/gallery/")[1].split("/")[0]`, as a
function of the URL's path.  `none` models the uncaught `IndexError`
raised by `[1]` when the path contains no `"/gallery/"`. -/
def folder_id_from_path (path : String) : Option String :=
  match pySplit "/gallery/" path with
  | _ :: second :: _ => some ((pySplit "/" second).headD "")
  | _ => none

/-! ## A model of a valid gallery with `N` total items

Used to state the pagination-count claim: at offset `off` the API returns
`min MAX (N - off)` well-formed items, reports `hasMore` exactly when items
remain beyond `off + MAX`, and advances the cursor to `off + MAX`. -/

def validItem : ResultItem :=
  { media := some
      { baseUri := some "b"
        prettyName := some "p"
        token := some ["t"]
        types := some [{ t := some "fullview", c := some "<prettyName>.jpg" }] }
    url := some "u" }

def validItemUrl : String := "bp.jpg?token=t"

def validGalleryApi (N MAX : Nat) : Nat → Option ApiJson := fun off =>
  some
    { results := List.replicate (min MAX (N - off)) validItem
      hasMore := some (decide (off + MAX < N))
      nextOffset := some (off + MAX) }

/-- The offsets at which the walk over a valid gallery calls the API. -/
def galleryOffsets (calls MAX : Nat) : List Nat :=
  (List.range calls).map (fun i => i * MAX)

/-! ## URL validation and dispatch — `__main__.py` lines 10-19 and 46-62

`pyUrlparse` models `urllib.parse.urlparse` for the URL shapes this program
touches: if the string contains `"://"`, the scheme is everything before its
first occurrence, the network location runs to the next `/`, `?` or `#`,
and the path runs from there to the next `?` or `#`; a string without
`"://"` is treated as a bare path with empty scheme and network location. -/

def splitFirstSub (sep : List Char) : List Char → Option (List Char × List Char)
  | [] => if sep.isEmpty then some ([], []) else none
  | c :: cs =>
    if begs sep (c :: cs) then some ([], (c :: cs).drop sep.length)
    else (splitFirstSub sep cs).map (fun pr => (c :: pr.1, pr.2))

structure UrlParts where
  scheme : String
  netloc : String
  path : String
  deriving DecidableEq

def pyUrlparse (url : String) : UrlParts :=
  match splitFirstSub "://".toList url.toList with
  | none => { scheme := "", netloc := "", path := url }
  | some (sch, rest) =>
    let netlocL := rest.takeWhile (fun c => !(c = '/' || c = '?' || c = '#'))
    let pathL := (rest.drop netlocL.length).takeWhile (fun c => !(c = '?' || c = '#'))
    { scheme := String.mk sch, netloc := String.mk netlocL, path := String.mk pathL }

/-- `is_valid_deviantart_url` (__main__.py lines 10-19). -/
def is_valid_deviantart_url (url : String) : Bool × String :=
  let parsed := pyUrlparse url
  if !pyEndsWith parsed.netloc "deviantart.com" then (false, "")
  else
    let parts := pySplit "/" (pyStripSlash parsed.path)
    if parts.length < 2 then (false, "")
    else ((parts.getD 1 "" = "art" || parts.getD 1 "" = "gallery"), parts.getD 1 "")

/-- The branch of the `if path_type == ...` chain in `main`
(__main__.py lines 52-62) selected for a given `path_type`. -/
inductive MainBranch where
  | galleryBranch
  | deviationBranch
  | artBranch
  | unknownBranch
  deriving DecidableEq

def main_dispatch (path_type : String) : MainBranch :=
  if path_type = "gallery" then .galleryBranch
  else if path_type = "deviation" then .deviationBranch
  else if path_type = "art" then .artBranch
  else .unknownBranch

/-- What each branch of the chain does: the first three call
`save_deviantart_art(session, url, headers)`, the last only prints
"Unknown URL type provided.". -/
def branch_calls_save_art : MainBranch → Bool
  | .galleryBranch => true
  | .deviationBranch => true
  | .artBranch => true
  | .unknownBranch => false

/-! ## Cookie persistence — cookies.py

`save_cookies` writes `json.dump(cookies, file, indent=2)`: an object whose
members are laid out one per line, indented by two spaces, key and value
separated by `": "`, members separated by `","`, strings escaped with the
standard JSON escapes (`\"`, `\\`, `\n`, `\r`, `\t`, `\b`, `\f`, and
`\u00XX` for the remaining control characters; other characters are
emitted verbatim, which round-trips identically to the `\uXXXX` escaping
Python applies to non-ASCII input).  `load_cookies` reads the file back
through `json.load`, returning `{}` on a decode error; the parser below
covers the JSON fragment that `save_cookies` produces (an object with
string keys and values), treating anything else as a decode failure.
The file contents are modelled as the character list handed from save to
load; a cookie dictionary is an association list in insertion order. -/

def hexDig (n : Nat) : Char :=
  "0123456789abcdef".toList.getD n '0'

def hexVal (c : Char) : Option Nat :=
  if '0' ≤ c ∧ c ≤ '9' then some (c.toNat - '0'.toNat)
  else if 'a' ≤ c ∧ c ≤ 'f' then some (c.toNat - 'a'.toNat + 10)
  else if 'A' ≤ c ∧ c ≤ 'F' then some (c.toNat - 'A'.toNat + 10)
  else none

def jsonEscapeChar (c : Char) : List Char :=
  if c = '"' then ['\\', '"']
  else if c = '\\' then ['\\', '\\']
  else if c = '\n' then ['\\', 'n']
  else if c = '\t' then ['\\', 't']
  else if c = '\r' then ['\\', 'r']
  else if c = '\x08' then ['\\', 'b']
  else if c = '\x0c' then ['\\', 'f']
  else if c.toNat < 0x20 then
    ['\\', 'u', '0', '0', hexDig (c.toNat / 16), hexDig (c.toNat % 16)]
  else [c]

def escChars : List Char → List Char
  | [] => []
  | c :: cs => jsonEscapeChar c ++ escChars cs

def dumpJString (s : List Char) : List Char :=
  '"' :: escChars s ++ ['"']

def dumpEntry (k v : List Char) : List Char :=
  dumpJString k ++ ':' :: ' ' :: dumpJString v

def dumpMembers : List (String × String) → List Char
  | [] => []
  | (k, v) :: rest =>
    match rest with
    | [] => '\n' :: ' ' :: ' ' :: dumpEntry k.toList v.toList
    | _ :: _ => '\n' :: ' ' :: ' ' :: dumpEntry k.toList v.toList ++ ',' :: dumpMembers rest

/-- The file contents written by `save_cookies cookies`
(cookies.py lines 26-36). -/
def save_cookies (cookies : List (String × String)) : List Char :=
  match cookies with
  | [] => ['\x7b', '\x7d']
  | _ :: _ => '\x7b' :: dumpMembers cookies ++ ['\n', '\x7d']

def isWsChar (c : Char) : Bool :=
  c = ' ' || c = '\n' || c = '\t' || c = '\r'

def skipWs : List Char → List Char
  | [] => []
  | c :: cs => if isWsChar c then skipWs cs else c :: cs

def unescapeJ (e : Char) : Option Char :=
  if e = '"' then some '"'
  else if e = '\\' then some '\\'
  else if e = '/' then some '/'
  else if e = 'b' then some '\x08'
  else if e = 'f' then some '\x0c'
  else if e = 'n' then some '\n'
  else if e = 'r' then some '\r'
  else if e = 't' then some '\t'
  else none

/-- JSON string body parser (the opening quote already consumed): returns
the decoded characters and the input after the closing quote.  Code points
at or above `0xD800` in a `\uXXXX` escape would need surrogate-pair
handling that the serializer never produces; they are rejected. -/
def parseJStringBody : List Char → Option (List Char × List Char)
  | [] => none
  | c :: rest =>
    if c = '"' then some ([], rest)
    else if c = '\\' then
      match rest with
      | [] => none
      | e :: rest2 =>
        if e = 'u' then
          match rest2 with
          | h1 :: h2 :: h3 :: h4 :: rest3 =>
            match hexVal h1, hexVal h2, hexVal h3, hexVal h4 with
            | some a, some b, some d, some f =>
              let n := ((a * 16 + b) * 16 + d) * 16 + f
              if n < 0xD800 then
                (parseJStringBody rest3).map
                  (fun pr => (Char.ofNat n :: pr.1, pr.2))
              else none
            | _, _, _, _ => none
          | _ => none
        else
          match unescapeJ e with
          | none => none
          | some u => (parseJStringBody rest2).map (fun pr => (u :: pr.1, pr.2))
    else if c.toNat < 0x20 then none
    else (parseJStringBody rest).map (fun pr => (c :: pr.1, pr.2))

/-- Member-list parser, positioned at the opening quote of a key; the fuel
bounds the number of members (one unit consumed per member). -/
def parseMembersAux : Nat → List Char → Option (List (List Char × List Char) × List Char)
  | 0, _ => none
  | fuel + 1, l =>
    match l with
    | [] => none
    | c :: rest =>
      if c = '"' then
        match parseJStringBody rest with
        | none => none
        | some (k, rest2) =>
          match skipWs rest2 with
          | [] => none
          | c2 :: rest3 =>
            if c2 = ':' then
              match skipWs rest3 with
              | [] => none
              | c3 :: rest4 =>
                if c3 = '"' then
                  match parseJStringBody rest4 with
                  | none => none
                  | some (v, rest5) =>
                    match skipWs rest5 with
                    | [] => none
                    | c4 :: rest6 =>
                      if c4 = ',' then
                        match parseMembersAux fuel (skipWs rest6) with
                        | none => none
                        | some (tl, rest7) => some ((k, v) :: tl, rest7)
                      else if c4 = '\x7d' then some ([(k, v)], rest6)
                      else none
                else none
            else none
      else none

def parseCookiesText (content : List Char) : Option (List (List Char × List Char)) :=
  match skipWs content with
  | [] => none
  | c :: rest =>
    if c = '\x7b' then
      match skipWs rest with
      | [] => none
      | c2 :: rest2 =>
        if c2 = '\x7d' then
          match skipWs rest2 with
          | [] => some []
          | _ :: _ => none
        else
          match parseMembersAux (content.length + 1) (c2 :: rest2) with
          | none => none
          | some (entries, rest3) =>
            match skipWs rest3 with
            | [] => some entries
            | _ :: _ => none
    else none

/-- `load_cookies` (cookies.py lines 7-23) applied to the given file
contents: parse the JSON text, returning the empty dictionary on a decode
error (the `json.JSONDecodeError` branch of the source). -/
def load_cookies (content : List Char) : List (String × String) :=
  match parseCookiesText content with
  | none => []
  | some entries => entries.map (fun pr => (String.mk pr.1, String.mk pr.2))

/-! ## Helper lemmas -/

theorem pySplitGo_of_not_contains (sep : List Char) :
    ∀ (s : List Char) (fuel : Nat) (acc : List Char),
    containsSub sep s = false →
    pySplitGo sep fuel s acc = [acc.reverse ++ s] := by
  intro s
  induction s with
  | nil =>
    intro fuel acc _
    cases fuel <;> simp [pySplitGo]
  | cons c cs ih =>
    intro fuel acc hcon
    simp only [containsSub, Bool.or_eq_false_iff] at hcon
    cases fuel with
    | zero => simp [pySplitGo]
    | succ f =>
      simp only [pySplitGo, hcon.1, Bool.false_and, Bool.and_self, if_false]
      rw [ih f (c :: acc) hcon.2]
      simp

/-- Claim C9: for an input URL whose path contains no "/gallery/" segment,
the folder-id extraction `urlparse(url).path.split("/gallery/")[1]`
performed by `get_gallery_media` raises an uncaught IndexError (modelled
by `none`); the source wraps it in no exception handler. -/
theorem C9_folder_id_raises (url : String)
    (h : containsSub "/gallery/".toList (pyUrlparse url).path.toList = false) :
    folder_id_from_path (pyUrlparse url).path = none := by
  unfold folder_id_from_path pySplit pySplitL
  rw [pySplitGo_of_not_contains _ _ _ _ h]
  rfl

theorem C9_witness :
    containsSub "/gallery/".toList
        (pyUrlparse "https://www.deviantart.com/artist/art/foo-123").path.toList = false ∧
    folder_id_from_path (pyUrlparse "https://www.deviantart.com/artist/art/foo-123").path
      = none :=
  ⟨by decide, C9_folder_id_raises _ (by decide)⟩

/-- Claim C3 counterexample: on a response sequence whose first two
responses are OK and carry a refreshed (non-deleted) `Set-Cookie`,
`send_request` issues three HTTP requests in total, i.e. it re-issues the
request twice, not exactly once as the claim states. -/
theorem C3_counterexample :
    send_request_calls
        [{ ok := true, setCookie := some "sid=a" },
         { ok := true, setCookie := some "sid=b" },
         { ok := true, setCookie := none }] = 3 ∧ (3 : Nat) ≠ 2 := by
  exact ⟨by decide, by decide⟩

/-- Claim C3 (amended): `send_request` re-issues the identical request once
per OK response carrying a non-deleted `Set-Cookie` header, so the number
of requests is one plus the number of such leading responses; the recursion
has no bound, and on a server that returns such a `Set-Cookie` header on
every response the function never returns (for every fuel bound the
recursion is still running). -/
theorem C3_retry_per_cookie_response :
    (∀ (r : HttpResponse) (rest : List HttpResponse) (c : String),
        r.ok = true → r.setCookie = some c → pyInStr "auth=deleted" c = false →
        send_request (r :: rest) = send_request rest ∧
        send_request_calls (r :: rest) = send_request_calls rest + 1)
    ∧ ∀ (fuel i : Nat),
        send_request_fuel fuel (fun _ => { ok := true, setCookie := some "sid=rotated" }) i
          = none := by
  constructor
  · intro r rest c hok hc hdel
    constructor
    · simp [send_request, hok, hc, hdel]
    · simp [send_request_calls, hok, hc, hdel]
      omega
  · intro fuel
    have hrot : pyInStr "auth=deleted" "sid=rotated" = false := by decide
    induction fuel with
    | zero => intro i; rfl
    | succ f ih =>
      intro i
      simp only [send_request_fuel, hrot]
      simpa using ih (i + 1)

theorem C3_witness :
    (send_request [{ ok := true, setCookie := some "sid=a" }, { ok := true, setCookie := none }]
        = send_request [{ ok := true, setCookie := none }] ∧
      send_request_calls
          [{ ok := true, setCookie := some "sid=a" }, { ok := true, setCookie := none }]
        = send_request_calls [{ ok := true, setCookie := none }] + 1) ∧
    send_request_fuel 4 (fun _ => { ok := true, setCookie := some "sid=rotated" }) 0 = none :=
  ⟨C3_retry_per_cookie_response.1 _ _ "sid=a" rfl rfl (by decide),
   C3_retry_per_cookie_response.2 4 0⟩

/-- Claim C5: a response whose `Set-Cookie` header contains the substring
"auth=deleted" makes `send_request` return `None`, and
`save_deviantart_art` then returns before issuing any image download
request, whatever the page scraper would have extracted. -/
theorem C5_auth_deleted_unauthenticated (r : HttpResponse) (rest : List HttpResponse)
    (c : String) (hc : r.setCookie = some c) (hdel : pyInStr "auth=deleted" c = true) :
    send_request (r :: rest) = some none ∧
    ∀ (pageText : HttpResponse → String) (extractImageUrl : String → Option String),
      save_deviantart_art (r :: rest) pageText extractImageUrl = [] := by
  have hsend : send_request (r :: rest) = some none := by
    by_cases hok : r.ok = false
    · simp [send_request, hok]
    · simp [send_request, hok, hc, hdel]
  exact ⟨hsend, fun pageText ext => by simp [save_deviantart_art, hsend]⟩

theorem C5_witness :
    send_request [{ ok := true, setCookie := some "auth=deleted; Path=/" }] = some none ∧
    save_deviantart_art [{ ok := true, setCookie := some "auth=deleted; Path=/" }]
        (fun _ => "<html></html>") (fun _ => none) = [] :=
  ⟨(C5_auth_deleted_unauthenticated _ [] _ rfl (by decide)).1,
   (C5_auth_deleted_unauthenticated _ [] _ rfl (by decide)).2 _ _⟩

/-- Claim C1 counterexample: at the claim's own concrete input
(base_uri="https://cdn/x", template="<prettyName>.jpg", pretty_name="cat",
token="abc") the construction yields "https://cdn/xcat.jpg?token=abc" —
the placeholder is replaced by "cat" and the result appended to the base
URI — and not "https://cdn/x.jpg?token=abc" as the claim states. -/
theorem C1_counterexample :
    processItem
        { media := some
            { baseUri := some "https://cdn/x", prettyName := some "cat",
              token := some ["abc"],
              types := some [{ t := some "fullview", c := some "<prettyName>.jpg" }] },
          url := none }
      = .resolved "https://cdn/xcat.jpg?token=abc" ∧
    ¬ processItem
        { media := some
            { baseUri := some "https://cdn/x", prettyName := some "cat",
              token := some ["abc"],
              types := some [{ t := some "fullview", c := some "<prettyName>.jpg" }] },
          url := none }
      = .resolved "https://cdn/x.jpg?token=abc" := by
  exact ⟨by decide, by decide⟩

/-- Claim C1 (amended): for a MediaItem carrying non-empty base_uri,
pretty_name, a token and a fullview template path, the resolved image URL
is the base URI concatenated with the template in which every occurrence
of "<prettyName>" is replaced by the pretty name, followed by "?token="
and the (first) token; at the claim's concrete input the construction
yields "https://cdn/xcat.jpg?token=abc". -/
theorem C1_resolved_image_url :
    (∀ (base pretty tok tmpl : String) (toks : List String) (tys : List MediaType)
        (u : Option String),
        base ≠ "" → pretty ≠ "" → tmpl ≠ "" →
        processItem
            { media := some
                { baseUri := some base, prettyName := some pretty,
                  token := some (tok :: toks),
                  types := some ({ t := some "fullview", c := some tmpl } :: tys) },
              url := u }
          = .resolved (base ++ pyReplace tmpl "<prettyName>" pretty ++ "?token=" ++ tok))
    ∧ processItem
          { media := some
              { baseUri := some "https://cdn/x", prettyName := some "cat",
                token := some ["abc"],
                types := some [{ t := some "fullview", c := some "<prettyName>.jpg" }] },
            url := none }
        = .resolved "https://cdn/xcat.jpg?token=abc" := by
  constructor
  · intro base pretty tok tmpl toks tys u hb hp ht
    simp [processItem, truthyStr, hb, hp, ht, List.find?]
  · decide

theorem C1_witness :
    processItem
        { media := some
            { baseUri := some "https://cdn/x", prettyName := some "cat",
              token := some ["abc", "spare"],
              types := some [{ t := some "fullview", c := some "<prettyName>.jpg" }] },
          url := some "https://deviantart.com/a/art/cat-1" }
      = .resolved ("https://cdn/x" ++ pyReplace "<prettyName>.jpg" "<prettyName>" "cat"
          ++ "?token=" ++ "abc") :=
  C1_resolved_image_url.1 "https://cdn/x" "cat" "abc" "<prettyName>.jpg" ["spare"] []
    (some "https://deviantart.com/a/art/cat-1") (by decide) (by decide) (by decide)

/-- Claim C2 counterexample: an item whose media lacks `baseUri` is skipped
but is NOT recorded in the error list — the extraction returns an unchanged
(empty) error list, contradicting the claim that such items are recorded. -/
theorem C2_counterexample :
    extract_image_urls_from_results
        [{ media := some
             { baseUri := none, prettyName := some "cat", token := some ["abc"],
               types := some [{ t := some "fullview", c := some "<prettyName>.jpg" }] },
           url := some "https://deviantart.com/a/art/cat-1" }] []
      = Except.ok ([], []) ∧
    ¬ ("https://deviantart.com/a/art/cat-1" ∈ ([] : List String)) := by
  exact ⟨rfl, by simp⟩

/-- Claim C2 (amended): an item whose media is missing (or has a falsy
value for) any of the required fields baseUri, prettyName, token or types
is skipped silently — it contributes no resolved URL, it is NOT added to
the error list, and it does not abort the batch: the extraction over
`item :: rest` equals the extraction over `rest` with the error list
unchanged. -/
theorem C2_missing_field_skipped (item : ResultItem) (m : Media)
    (hm : item.media = some m)
    (hmiss : truthyStr m.baseUri = false ∨ truthyStr m.prettyName = false
      ∨ (m.token.getD []).isEmpty = true ∨ (m.types.getD []).isEmpty = true) :
    processItem item = .skipped ∧
    ∀ (rest : List ResultItem) (errs : List String),
      extract_image_urls_from_results (item :: rest) errs
        = extract_image_urls_from_results rest errs := by
  have hskip : processItem item = .skipped := by
    simp only [processItem, hm]
    rcases hmiss with h | h | h | h <;> simp [h]
  exact ⟨hskip, fun rest errs => by simp [extract_image_urls_from_results, hskip]⟩

theorem C2_witness :
    processItem
        { media := some
            { baseUri := none, prettyName := some "cat", token := some ["abc"],
              types := some [{ t := some "fullview", c := some "<prettyName>.jpg" }] },
          url := some "https://deviantart.com/a/art/cat-1" }
      = .skipped ∧
    extract_image_urls_from_results
        [{ media := some
             { baseUri := none, prettyName := some "cat", token := some ["abc"],
               types := some [{ t := some "fullview", c := some "<prettyName>.jpg" }] },
           url := some "https://deviantart.com/a/art/cat-1" }] ["earlier"]
      = extract_image_urls_from_results [] ["earlier"] :=
  ⟨(C2_missing_field_skipped _ _ rfl (Or.inl (by decide))).1,
   (C2_missing_field_skipped _ _ rfl (Or.inl (by decide))).2 [] ["earlier"]⟩

/-- Claim C7 counterexample: a result item whose media has all required
fields and whose types lack a fullview entry, but which itself has no
"url" key, is NOT added to the error list: `item["url"]` raises KeyError
and the whole batch aborts with nothing recorded. -/
theorem C7_counterexample :
    processItem
        { media := some
            { baseUri := some "https://cdn/x", prettyName := some "cat",
              token := some ["abc"], types := some [{ t := some "preview", c := some "x" }] },
          url := none }
      = ItemResult.keyErr ∧
    extract_image_urls_from_results
        [{ media := some
             { baseUri := some "https://cdn/x", prettyName := some "cat",
               token := some ["abc"], types := some [{ t := some "preview", c := some "x" }] },
           url := none }] []
      = Except.error () := by
  exact ⟨rfl, rfl⟩

/-- Claim C7 (amended): a result item that carries a "url" key, whose media
has all required fields truthy, and whose types lack a fullview entry, is
added to the error list exactly once per occurrence and produces no
resolved URL: processing it appends its url to the error list and
continues with the rest of the batch, and each such append increases the
occurrence count of that url by exactly one. -/
theorem C7_missing_fullview_recorded (item : ResultItem) (m : Media) (u : String)
    (hm : item.media = some m) (hu : item.url = some u)
    (hb : truthyStr m.baseUri = true) (hp : truthyStr m.prettyName = true)
    (htok : (m.token.getD []).isEmpty = false) (hty : (m.types.getD []).isEmpty = false)
    (hfv : (m.types.getD []).find? (fun ty => ty.t == some "fullview") = none) :
    processItem item = .recorded u ∧
    (∀ (rest : List ResultItem) (errs : List String),
      extract_image_urls_from_results (item :: rest) errs
        = extract_image_urls_from_results rest (errs ++ [u])) ∧
    ∀ errs : List String, (errs ++ [u]).count u = errs.count u + 1 := by
  have hrec : processItem item = .recorded u := by
    simp only [processItem, hm]
    simp [hb, hp, htok, hty, hfv, hu]
  refine ⟨hrec, fun rest errs => by simp [extract_image_urls_from_results, hrec],
    fun errs => by simp⟩

theorem C7_witness :
    processItem
        { media := some
            { baseUri := some "https://cdn/x", prettyName := some "cat",
              token := some ["abc"], types := some [{ t := some "preview", c := some "x" }] },
          url := some "https://deviantart.com/a/art/cat-2" }
      = .recorded "https://deviantart.com/a/art/cat-2" ∧
    extract_image_urls_from_results
        [{ media := some
             { baseUri := some "https://cdn/x", prettyName := some "cat",
               token := some ["abc"], types := some [{ t := some "preview", c := some "x" }] },
           url := some "https://deviantart.com/a/art/cat-2" }] []
      = extract_image_urls_from_results [] ([] ++ ["https://deviantart.com/a/art/cat-2"]) ∧
    (([] : List String) ++ ["https://deviantart.com/a/art/cat-2"]).count
        "https://deviantart.com/a/art/cat-2"
      = ([] : List String).count "https://deviantart.com/a/art/cat-2" + 1 := by
  have h := C7_missing_fullview_recorded
    { media := some
        { baseUri := some "https://cdn/x", prettyName := some "cat",
          token := some ["abc"], types := some [{ t := some "preview", c := some "x" }] },
      url := some "https://deviantart.com/a/art/cat-2" }
    { baseUri := some "https://cdn/x", prettyName := some "cat",
      token := some ["abc"], types := some [{ t := some "preview", c := some "x" }] }
    "https://deviantart.com/a/art/cat-2" rfl rfl (by decide) (by decide) (by decide)
    (by decide) (by decide)
  exact ⟨h.1, h.2.1 [] [], h.2.2 []⟩

/-- Claim C4: the gallery walk terminates when the API reports no more
results or when the API call fails.  If the first call reports
`hasMore = false` (or omits it, defaulting to false), exactly one API call
is made — the offset trace is `[0]` — and the walk terminates normally;
if the first API call fails, the walk also terminates after that single
call with no batch yielded. -/
theorem C4_first_page_terminates (MAX fuel : Nat) (api : Nat → Option ApiJson)
    (errs : List String) (hfuel : 1 ≤ fuel) :
    (∀ (j : ApiJson) (urls errs2 : List String),
        api 0 = some j → j.hasMore.getD false = false →
        extract_image_urls_from_results j.results errs = .ok (urls, errs2) →
        get_gallery_media_loop MAX api fuel 0 errs = some (.ok ([urls], [0], errs2)))
    ∧ (api 0 = none →
        get_gallery_media_loop MAX api fuel 0 errs = some (.ok ([], [0], errs))) := by
  obtain ⟨f, rfl⟩ : ∃ f, fuel = f + 1 := ⟨fuel - 1, by omega⟩
  constructor
  · intro j urls errs2 hapi hmore hext
    simp [get_gallery_media_loop, fetch_media_batch, hapi, hext, hmore]
  · intro hapi
    simp [get_gallery_media_loop, fetch_media_batch, hapi]

theorem C4_witness :
    get_gallery_media_loop 24
        (fun _ => some { results := [], hasMore := some false, nextOffset := some 24 }) 1 0 []
      = some (.ok ([[]], [0], [])) :=
  (C4_first_page_terminates 24 1 _ [] (by omega)).1 _ [] [] rfl rfl rfl

/-- Claim C10: `is_valid_deviantart_url` returns `(true, t)` only for
`t = "art"` or `t = "gallery"`; hence for every accepted URL the dispatch
chain in `main` never reaches its "deviation" branch nor its
"Unknown URL type" branch, and the selected branch calls
`save_deviantart_art` (gallery URLs included). -/
theorem C10_accepted_url_dispatch (url : String) :
    ((is_valid_deviantart_url url).1 = true →
      (is_valid_deviantart_url url).2 = "art" ∨ (is_valid_deviantart_url url).2 = "gallery")
    ∧ ((is_valid_deviantart_url url).1 = true →
        main_dispatch (is_valid_deviantart_url url).2 ≠ MainBranch.deviationBranch
        ∧ main_dispatch (is_valid_deviantart_url url).2 ≠ MainBranch.unknownBranch
        ∧ branch_calls_save_art (main_dispatch (is_valid_deviantart_url url).2) = true) := by
  have hshape : is_valid_deviantart_url url = (false, "")
      ∨ ∃ a : String, is_valid_deviantart_url url
          = (((a = "art" : Bool) || (a = "gallery" : Bool)), a) := by
    unfold is_valid_deviantart_url
    dsimp only
    split_ifs with h1 h2
    · exact Or.inl rfl
    · exact Or.inl rfl
    · exact Or.inr ⟨_, rfl⟩
  rcases hshape with h | ⟨a, h⟩
  · rw [h]
    exact ⟨fun hc => by simp at hc, fun hc => by simp at hc⟩
  · rw [h]
    have key : ((a = "art" : Bool) || (a = "gallery" : Bool)) = true →
        a = "art" ∨ a = "gallery" := by
      intro hc
      simpa using hc
    constructor
    · intro hc
      exact key hc
    · intro hc
      rcases key hc with rfl | rfl
      · exact ⟨by decide, by decide, by decide⟩
      · exact ⟨by decide, by decide, by decide⟩

theorem C10_witness :
    ((is_valid_deviantart_url "https://www.deviantart.com/someone/gallery/123/all").2 = "art"
      ∨ (is_valid_deviantart_url "https://www.deviantart.com/someone/gallery/123/all").2
          = "gallery")
    ∧ (main_dispatch
          (is_valid_deviantart_url "https://www.deviantart.com/someone/gallery/123/all").2
        ≠ MainBranch.deviationBranch
      ∧ main_dispatch
            (is_valid_deviantart_url "https://www.deviantart.com/someone/gallery/123/all").2
          ≠ MainBranch.unknownBranch
      ∧ branch_calls_save_art
            (main_dispatch
              (is_valid_deviantart_url "https://www.deviantart.com/someone/gallery/123/all").2)
          = true) :=
  ⟨(C10_accepted_url_dispatch _).1 (by decide), (C10_accepted_url_dispatch _).2 (by decide)⟩

/-! ## Pagination over a valid gallery (claim C6) -/

/-- The batches the walk yields over `validGalleryApi N MAX` when starting
from `offset` and making `c` API calls. -/
def galleryBatches (N MAX offset c : Nat) : List (List String) :=
  (List.range c).map
    (fun i => List.replicate (min MAX (N - (offset + i * MAX))) validItemUrl)

theorem processItem_validItem : processItem validItem = .resolved validItemUrl := by decide

theorem extract_replicate_validItem (k : Nat) (errs : List String) :
    extract_image_urls_from_results (List.replicate k validItem) errs
      = .ok (List.replicate k validItemUrl, errs) := by
  induction k with
  | zero => rfl
  | succ n ih =>
    simp [List.replicate_succ, extract_image_urls_from_results, processItem_validItem, ih]

theorem walk_validGallery (N MAX : Nat) (hMAX : 1 ≤ MAX) :
    ∀ (fuel offset : Nat) (errs : List String), offset < N →
      (N - offset + MAX - 1) / MAX ≤ fuel →
      get_gallery_media_loop MAX (validGalleryApi N MAX) fuel offset errs
        = some (.ok (galleryBatches N MAX offset ((N - offset + MAX - 1) / MAX),
            (List.range ((N - offset + MAX - 1) / MAX)).map (fun i => offset + i * MAX),
            errs)) := by
  intro fuel
  induction fuel with
  | zero =>
    intro offset errs hoff hfuel
    exfalso
    have h1 : 1 ≤ (N - offset + MAX - 1) / MAX := by
      rw [Nat.one_le_div_iff (by omega)]
      omega
    omega
  | succ f ih =>
    intro offset errs hoff hfuel
    have hfetch : fetch_media_batch MAX (validGalleryApi N MAX) offset errs
        = some (.ok ((List.replicate (min MAX (N - offset)) validItemUrl,
            decide (offset + MAX < N), offset + MAX), errs)) := by
      simp [fetch_media_batch, validGalleryApi, extract_replicate_validItem]
    by_cases hmore : offset + MAX < N
    · have hcount : (N - offset + MAX - 1) / MAX
          = (N - (offset + MAX) + MAX - 1) / MAX + 1 := by
        have heq : N - offset + MAX - 1 = (N - (offset + MAX) + MAX - 1) + MAX := by omega
        rw [heq, Nat.add_div_right _ (by omega)]
      have hrec := ih (offset + MAX) errs hmore (by omega)
      have hbat : galleryBatches N MAX offset ((N - offset + MAX - 1) / MAX)
          = List.replicate (min MAX (N - offset)) validItemUrl
            :: galleryBatches N MAX (offset + MAX) ((N - (offset + MAX) + MAX - 1) / MAX) := by
        rw [hcount, galleryBatches, galleryBatches, List.range_succ_eq_map, List.map_cons,
          List.map_map]
        simp only [Nat.zero_mul, Nat.add_zero]
        congr 1
        refine List.map_congr_left fun a _ => ?_
        have h2 : offset + (a + 1) * MAX = offset + MAX + a * MAX := by ring
        simp [Function.comp, h2]
      have hoffs : (List.range ((N - offset + MAX - 1) / MAX)).map (fun i => offset + i * MAX)
          = offset
            :: (List.range ((N - (offset + MAX) + MAX - 1) / MAX)).map
                (fun i => offset + MAX + i * MAX) := by
        rw [hcount, List.range_succ_eq_map, List.map_cons, List.map_map]
        simp only [Nat.zero_mul, Nat.add_zero]
        congr 1
        refine List.map_congr_left fun a _ => ?_
        have h2 : offset + (a + 1) * MAX = offset + MAX + a * MAX := by ring
        simp [Function.comp, h2]
      have hd : decide (offset + MAX < N) = true := by simpa using hmore
      simp only [get_gallery_media_loop, hfetch, hd]
      rw [if_neg (by simp)]
      rw [hrec, hbat, hoffs]
    · have hcount : (N - offset + MAX - 1) / MAX = 1 := by
        have h1 : 1 * MAX ≤ N - offset + MAX - 1 := by omega
        have h2 : N - offset + MAX - 1 < (1 + 1) * MAX := by omega
        exact Nat.div_eq_of_lt_le h1 h2
      have hd : decide (offset + MAX < N) = false := by simpa using hmore
      simp only [get_gallery_media_loop, hfetch, hd]
      rw [if_pos trivial]
      rw [hcount]
      have hr1 : List.range 1 = [0] := rfl
      simp [galleryBatches, hr1]

/-- Claim C6 counterexample: over a valid gallery with N = 0 total items
and page size 24, the walk still makes one API call (the loop body runs
before `has_more` is consulted), while ceil(0 / 24) = 0 — so the claimed
call count ceil(N / MAX_GALLERY_ITEMS) fails at N = 0. -/
theorem C6_counterexample :
    get_gallery_media_loop 24 (validGalleryApi 0 24) 1 0 []
      = some (.ok ([[]], [0], [])) ∧
    (0 + 24 - 1) / 24 = 0 ∧ ([0] : List Nat).length ≠ (0 + 24 - 1) / 24 := by
  exact ⟨rfl, by decide, by decide⟩

/-- Claim C6 (amended): for every valid gallery with N ≥ 1 total items and
page size MAX ≥ 1, absent early termination the walk issues exactly
ceil(N / MAX) = (N + MAX - 1) / MAX API calls, at the strictly increasing
offsets 0, MAX, 2·MAX, …; for N = 0 the walk issues one call instead of
zero. -/
theorem C6_pagination_ceil (N MAX fuel : Nat) (hMAX : 1 ≤ MAX) (hN : 1 ≤ N)
    (hfuel : (N + MAX - 1) / MAX ≤ fuel) :
    get_gallery_media_loop MAX (validGalleryApi N MAX) fuel 0 []
        = some (.ok (galleryBatches N MAX 0 ((N + MAX - 1) / MAX),
            galleryOffsets ((N + MAX - 1) / MAX) MAX, []))
      ∧ (galleryOffsets ((N + MAX - 1) / MAX) MAX).length = (N + MAX - 1) / MAX
      ∧ List.Pairwise (· < ·) (galleryOffsets ((N + MAX - 1) / MAX) MAX) := by
  have h0 : N - 0 + MAX - 1 = N + MAX - 1 := by omega
  have hwalk := walk_validGallery N MAX hMAX fuel 0 [] (by omega) (by rw [h0]; exact hfuel)
  rw [h0] at hwalk
  refine ⟨?_, ?_, ?_⟩
  · rw [hwalk]
    have hoffs : (List.range ((N + MAX - 1) / MAX)).map (fun i => 0 + i * MAX)
        = galleryOffsets ((N + MAX - 1) / MAX) MAX :=
      List.map_congr_left fun a _ => by omega
    rw [hoffs]
  · simp [galleryOffsets]
  · unfold galleryOffsets
    refine List.Pairwise.map _ ?_ (List.pairwise_lt_range _)
    intro a b hab
    exact (Nat.mul_lt_mul_right (by omega)).mpr hab

theorem C6_witness :
    get_gallery_media_loop 3 (validGalleryApi 7 3) 3 0 []
        = some (.ok (galleryBatches 7 3 0 ((7 + 3 - 1) / 3),
            galleryOffsets ((7 + 3 - 1) / 3) 3, []))
      ∧ (galleryOffsets ((7 + 3 - 1) / 3) 3).length = (7 + 3 - 1) / 3
      ∧ List.Pairwise (· < ·) (galleryOffsets ((7 + 3 - 1) / 3) 3) :=
  C6_pagination_ceil 7 3 3 (by omega) (by omega) (by omega)

/-! ## Round-trip lemmas for the cookie store (claim C8) -/

theorem hexVal_hexDig : ∀ n < 16, hexVal (hexDig n) = some n := by decide

theorem skipWs_cons_ws (c : Char) (l : List Char) (h : isWsChar c = true) :
    skipWs (c :: l) = skipWs l := by
  rw [skipWs.eq_def]
  simp [h]

theorem skipWs_cons_not (c : Char) (l : List Char) (h : isWsChar c = false) :
    skipWs (c :: l) = c :: l := by
  rw [skipWs.eq_def]
  simp [h]

theorem parseBody_escape_step (e u : Char) (t : List Char) (he : ¬ e = 'u')
    (hu : unescapeJ e = some u) :
    parseJStringBody ('\\' :: e :: t)
      = (parseJStringBody t).map (fun pr => (u :: pr.1, pr.2)) := by
  rw [parseJStringBody.eq_def]
  simp [he, hu]

theorem parseBody_raw_step (c : Char) (t : List Char) (h1 : ¬ c = '"') (h2 : ¬ c = '\\')
    (h3 : ¬ c.toNat < 0x20) :
    parseJStringBody (c :: t)
      = (parseJStringBody t).map (fun pr => (c :: pr.1, pr.2)) := by
  rw [parseJStringBody.eq_def]
  simp [h1, h2, h3]

theorem parseBody_unicode_step (a b d e : Char) (va vb vd ve : Nat) (t : List Char)
    (ha : hexVal a = some va) (hb : hexVal b = some vb) (hd : hexVal d = some vd)
    (he : hexVal e = some ve)
    (hlt : ((va * 16 + vb) * 16 + vd) * 16 + ve < 0xD800) :
    parseJStringBody ('\\' :: 'u' :: a :: b :: d :: e :: t)
      = (parseJStringBody t).map
          (fun pr => (Char.ofNat (((va * 16 + vb) * 16 + vd) * 16 + ve) :: pr.1, pr.2)) := by
  rw [parseJStringBody.eq_def]
  simp [ha, hb, hd, he, hlt]

theorem parseBody_esc (s : List Char) : ∀ rest : List Char,
    parseJStringBody (escChars s ++ '"' :: rest) = some (s, rest) := by
  induction s with
  | nil =>
    intro rest
    show parseJStringBody (escChars [] ++ '"' :: rest) = some ([], rest)
    rw [show escChars [] = [] from rfl, List.nil_append, parseJStringBody.eq_def]
    simp
  | cons c cs ih =>
    intro rest
    have hassoc : escChars (c :: cs) ++ '"' :: rest
        = jsonEscapeChar c ++ (escChars cs ++ '"' :: rest) := by
      simp [escChars, List.append_assoc]
    rw [hassoc]
    by_cases h1 : c = '"'
    · subst h1
      rw [show jsonEscapeChar '"' = ['\\', '"'] from rfl]
      simp only [List.cons_append, List.nil_append]
      rw [parseBody_escape_step '"' '"' _ (by decide) (by decide), ih rest]
      rfl
    · by_cases h2 : c = '\\'
      · subst h2
        rw [show jsonEscapeChar '\\' = ['\\', '\\'] from rfl]
        simp only [List.cons_append, List.nil_append]
        rw [parseBody_escape_step '\\' '\\' _ (by decide) (by decide), ih rest]
        rfl
      · by_cases h3 : c = '\n'
        · subst h3
          rw [show jsonEscapeChar '\n' = ['\\', 'n'] from rfl]
          simp only [List.cons_append, List.nil_append]
          rw [parseBody_escape_step 'n' '\n' _ (by decide) (by decide), ih rest]
          rfl
        · by_cases h4 : c = '\t'
          · subst h4
            rw [show jsonEscapeChar '\t' = ['\\', 't'] from rfl]
            simp only [List.cons_append, List.nil_append]
            rw [parseBody_escape_step 't' '\t' _ (by decide) (by decide), ih rest]
            rfl
          · by_cases h5 : c = '\r'
            · subst h5
              rw [show jsonEscapeChar '\r' = ['\\', 'r'] from rfl]
              simp only [List.cons_append, List.nil_append]
              rw [parseBody_escape_step 'r' '\r' _ (by decide) (by decide), ih rest]
              rfl
            · by_cases h6 : c = '\x08'
              · subst h6
                rw [show jsonEscapeChar '\x08' = ['\\', 'b'] from rfl]
                simp only [List.cons_append, List.nil_append]
                rw [parseBody_escape_step 'b' '\x08' _ (by decide) (by decide), ih rest]
                rfl
              · by_cases h7 : c = '\x0c'
                · subst h7
                  rw [show jsonEscapeChar '\x0c' = ['\\', 'f'] from rfl]
                  simp only [List.cons_append, List.nil_append]
                  rw [parseBody_escape_step 'f' '\x0c' _ (by decide) (by decide), ih rest]
                  rfl
                · by_cases h8 : c.toNat < 0x20
                  · have hesc : jsonEscapeChar c
                        = ['\\', 'u', '0', '0', hexDig (c.toNat / 16), hexDig (c.toNat % 16)] := by
                      simp [jsonEscapeChar, h1, h2, h3, h4, h5, h6, h7, h8]
                    rw [hesc]
                    simp only [List.cons_append, List.nil_append]
                    rw [parseBody_unicode_step '0' '0' (hexDig (c.toNat / 16))
                      (hexDig (c.toNat % 16)) 0 0 (c.toNat / 16) (c.toNat % 16) _
                      (by decide) (by decide) (hexVal_hexDig _ (by omega))
                      (hexVal_hexDig _ (by omega)) (by omega), ih rest]
                    have hn : ((0 * 16 + 0) * 16 + c.toNat / 16) * 16 + c.toNat % 16
                        = c.toNat := by omega
                    rw [hn]
                    simp [Char.ofNat_toNat]
                  · have hesc : jsonEscapeChar c = [c] := by
                      simp [jsonEscapeChar, h1, h2, h3, h4, h5, h6, h7, h8]
                    rw [hesc]
                    simp only [List.cons_append, List.nil_append]
                    rw [parseBody_raw_step c _ h1 h2 h8, ih rest]
                    rfl

theorem dumpEntry_append (a b T : List Char) :
    dumpEntry a b ++ T
      = '"' :: (escChars a ++ '"' :: ':' :: ' ' :: '"' :: (escChars b ++ '"' :: T)) := by
  simp [dumpEntry, dumpJString, List.append_assoc]

theorem parseMembersAux_entry (f : Nat) (k v T : List Char) :
    parseMembersAux (f + 1) (dumpEntry k v ++ T)
      = (match skipWs T with
         | [] => none
         | c4 :: rest6 =>
           if c4 = ',' then
             match parseMembersAux f (skipWs rest6) with
             | none => none
             | some (tl, rest7) => some ((k, v) :: tl, rest7)
           else if c4 = '\x7d' then some ([(k, v)], rest6)
           else none) := by
  have hcolon : ∀ l : List Char, skipWs (':' :: l) = ':' :: l :=
    fun l => skipWs_cons_not _ _ (by decide)
  have hq : ∀ l : List Char, skipWs ('"' :: l) = '"' :: l :=
    fun l => skipWs_cons_not _ _ (by decide)
  have hsp : ∀ l : List Char, skipWs (' ' :: l) = skipWs l :=
    fun l => skipWs_cons_ws _ _ (by decide)
  rw [dumpEntry_append, parseMembersAux.eq_def]
  simp [parseBody_esc, hcolon, hq, hsp]

theorem parseMembers_dump : ∀ (entries : List (String × String)) (fuel : Nat),
    entries ≠ [] → entries.length ≤ fuel →
    parseMembersAux fuel (skipWs (dumpMembers entries ++ ['\n', '\x7d']))
      = some (entries.map (fun pr => (pr.1.toList, pr.2.toList)), []) := by
  intro entries
  induction entries with
  | nil => intro fuel h _; exact absurd rfl h
  | cons kv rest ih =>
    intro fuel _ hlen
    obtain ⟨k, v⟩ := kv
    obtain ⟨f, rfl⟩ : ∃ f, fuel = f + 1 := ⟨fuel - 1, by simp at hlen; omega⟩
    have hnl : ∀ l : List Char, skipWs ('\n' :: l) = skipWs l :=
      fun l => skipWs_cons_ws _ _ (by decide)
    have hsp : ∀ l : List Char, skipWs (' ' :: l) = skipWs l :=
      fun l => skipWs_cons_ws _ _ (by decide)
    have hq : ∀ l : List Char, skipWs ('"' :: l) = '"' :: l :=
      fun l => skipWs_cons_not _ _ (by decide)
    cases rest with
    | nil =>
      have hdm : dumpMembers [(k, v)] ++ ['\n', '\x7d']
          = '\n' :: ' ' :: ' ' :: (dumpEntry k.toList v.toList ++ ['\n', '\x7d']) := by
        simp [dumpMembers]
      rw [hdm, hnl, hsp, hsp, dumpEntry_append, hq, ← dumpEntry_append,
        parseMembersAux_entry]
      have htail : skipWs ['\n', '\x7d'] = ['\x7d'] := by
        rw [hnl]
        exact skipWs_cons_not _ _ (by decide)
      rw [htail]
      simp
    | cons r rs =>
      have hdm : dumpMembers ((k, v) :: r :: rs) ++ ['\n', '\x7d']
          = '\n' :: ' ' :: ' ' ::
            (dumpEntry k.toList v.toList
              ++ (',' :: (dumpMembers (r :: rs) ++ ['\n', '\x7d']))) := by
        simp [dumpMembers, List.append_assoc]
      rw [hdm, hnl, hsp, hsp, dumpEntry_append, hq, ← dumpEntry_append,
        parseMembersAux_entry]
      have hcm : skipWs (',' :: (dumpMembers (r :: rs) ++ ['\n', '\x7d']))
          = ',' :: (dumpMembers (r :: rs) ++ ['\n', '\x7d']) :=
        skipWs_cons_not _ _ (by decide)
      rw [hcm]
      have hlen2 : (r :: rs).length ≤ f := by simp at hlen ⊢; omega
      simp only [ih f (by simp) hlen2]
      simp

theorem skipWs_dumpMembers_head (kv : String × String) (rest : List (String × String))
    (X : List Char) :
    ∃ l : List Char, skipWs (dumpMembers (kv :: rest) ++ X) = '"' :: l := by
  obtain ⟨k, v⟩ := kv
  have hnl : ∀ l : List Char, skipWs ('\n' :: l) = skipWs l :=
    fun l => skipWs_cons_ws _ _ (by decide)
  have hsp : ∀ l : List Char, skipWs (' ' :: l) = skipWs l :=
    fun l => skipWs_cons_ws _ _ (by decide)
  have hq : ∀ l : List Char, skipWs ('"' :: l) = '"' :: l :=
    fun l => skipWs_cons_not _ _ (by decide)
  cases rest with
  | nil =>
    refine ⟨escChars k.toList ++ '"' :: ':' :: ' ' :: '"'
        :: (escChars v.toList ++ '"' :: X), ?_⟩
    have hdm : dumpMembers [(k, v)] ++ X
        = '\n' :: ' ' :: ' ' :: (dumpEntry k.toList v.toList ++ X) := by
      simp [dumpMembers]
    rw [hdm, hnl, hsp, hsp, dumpEntry_append, hq]
  | cons r rs =>
    refine ⟨escChars k.toList ++ '"' :: ':' :: ' ' :: '"'
        :: (escChars v.toList ++ '"' :: (',' :: (dumpMembers (r :: rs) ++ X))), ?_⟩
    have hdm : dumpMembers ((k, v) :: r :: rs) ++ X
        = '\n' :: ' ' :: ' ' ::
          (dumpEntry k.toList v.toList ++ (',' :: (dumpMembers (r :: rs) ++ X))) := by
      simp [dumpMembers, List.append_assoc]
    rw [hdm, hnl, hsp, hsp, dumpEntry_append, hq]

theorem length_le_dumpMembers : ∀ entries : List (String × String),
    entries.length ≤ (dumpMembers entries).length := by
  intro entries
  induction entries with
  | nil => simp [dumpMembers]
  | cons kv rest ih =>
    obtain ⟨k, v⟩ := kv
    cases rest with
    | nil => simp [dumpMembers]
    | cons r rs =>
      have hd : dumpMembers ((k, v) :: r :: rs)
          = '\n' :: ' ' :: ' '
            :: (dumpEntry k.toList v.toList ++ ',' :: dumpMembers (r :: rs)) := by
        simp [dumpMembers]
      rw [hd]
      simp only [List.length_cons, List.length_append] at ih ⊢
      omega

theorem load_save_cookies (cookies : List (String × String)) :
    load_cookies (save_cookies cookies) = cookies := by
  cases cookies with
  | nil => rfl
  | cons kv rest =>
    have hsave : save_cookies (kv :: rest)
        = '\x7b' :: (dumpMembers (kv :: rest) ++ ['\n', '\x7d']) := by
      simp [save_cookies]
    obtain ⟨l, hl⟩ := skipWs_dumpMembers_head kv rest ['\n', '\x7d']
    have hfuel : (kv :: rest).length
        ≤ ('\x7b' :: (dumpMembers (kv :: rest) ++ ['\n', '\x7d'])).length + 1 := by
      have := length_le_dumpMembers (kv :: rest)
      simp only [List.length_cons, List.length_append] at this ⊢
      omega
    have hmembers := parseMembers_dump (kv :: rest)
      (('\x7b' :: (dumpMembers (kv :: rest) ++ ['\n', '\x7d'])).length + 1)
      (by simp) hfuel
    have hparse : parseCookiesText ('\x7b' :: (dumpMembers (kv :: rest) ++ ['\n', '\x7d']))
        = some ((kv :: rest).map (fun pr => (pr.1.toList, pr.2.toList))) := by
      unfold parseCookiesText
      rw [skipWs_cons_not _ _ (by decide)]
      dsimp only
      rw [if_pos rfl, hl]
      dsimp only
      rw [if_neg (by decide), ← hl, hmembers]
      dsimp only
      rfl
    rw [hsave]
    unfold load_cookies
    rw [hparse]
    dsimp only
    rw [List.map_map]
    have hid : ∀ pr : String × String,
        ((fun pr : List Char × List Char => (String.mk pr.1, String.mk pr.2))
          ∘ (fun pr : String × String => (pr.1.toList, pr.2.toList))) pr = pr := by
      intro pr
      rfl
    rw [List.map_congr_left (fun pr _ => hid pr)]
    simp

/-- Claim C8: a cookie dictionary saved with `save_cookies` and reloaded
with `load_cookies` from the same file reproduces the original as a
key/value mapping; and the reloaded mapping is independent of the
insertion order of the keys — any two stores with equal mappings reload to
equal mappings. -/
theorem C8_cookies_roundtrip (cookies : List (String × String)) :
    load_cookies (save_cookies cookies) = cookies ∧
    ∀ (other : List (String × String)) (k : String),
      (∀ key : String, other.lookup key = cookies.lookup key) →
      (load_cookies (save_cookies other)).lookup k
        = (load_cookies (save_cookies cookies)).lookup k := by
  refine ⟨load_save_cookies cookies, fun other k h => ?_⟩
  rw [load_save_cookies, load_save_cookies]
  exact h k

theorem C8_witness :
    load_cookies (save_cookies [("sid", "1"), ("auth", "2")])
      = [("sid", "1"), ("auth", "2")] ∧
    (load_cookies (save_cookies [("auth", "2"), ("sid", "1")])).lookup "sid"
      = (load_cookies (save_cookies [("sid", "1"), ("auth", "2")])).lookup "sid" :=
  ⟨(C8_cookies_roundtrip [("sid", "1"), ("auth", "2")]).1,
   (C8_cookies_roundtrip [("sid", "1"), ("auth", "2")]).2 [("auth", "2"), ("sid", "1")] "sid"
     (fun key => by
       by_cases h1 : key = "auth"
       · subst h1
         decide
       · by_cases h2 : key = "sid"
         · subst h2
           decide
         · have h1x : (key == ("auth" : String)) = false :=
             beq_eq_false_iff_ne.mpr h1
           have h2x : (key == ("sid" : String)) = false :=
             beq_eq_false_iff_ne.mpr h2
           simp [List.lookup, h1x, h2x])⟩
